import Mathlib

/-!
Verification of the dataset-construction pipeline of the
`temporal_hydronephrosis` repository (`utilities/dataset_prep.py`).

The Python module is shallowly embedded below.  JSON-like Python values
are modelled by `PyVal`; Python dictionaries are modelled by association
lists with insertion-order update semantics (`dictSet`); Python
exceptions that the extractor can raise or catch are modelled by `PyErr`
threaded through the per-patient computation.  Seeded library
primitives (`sklearn.utils.shuffle`, `StratifiedKFold`,
`StratifiedShuffleSplit`) are modelled as explicit function parameters:
because each is invoked with the fixed seed 42, each is a pure function
of its remaining arguments, and theorems about the split engine are
stated for every such function (with the library's documented
guarantees as hypotheses where needed).

Numeric proportions (`test_prop = 0.2`, `split = 0.8`) and float field
values are modelled as exact fractions (`Frac`); on the proportions the
code actually uses, exact-rational rounding and flooring agree with the
Python float computation.

Pixel-level image processing is irrelevant to the record extractor's
bookkeeping; the extractor model records, for each sample, the pair of
image paths that the code would stack.  The recursion structure of
`process_input_image` / `special_ST_preprocessing` is modelled
separately (fuel-indexed) to settle the termination claim, with the
filesystem abstracted as a map from path to raised-image dimensions.
-/

/-- Model of the JSON-like Python values manipulated by `dataset_prep.py`.
Integers and floats are kept distinct because the code tests
`type(x) == int`; a float is an exact fraction `fnum / fden`. -/
inductive PyVal where
  | vnone
  | vint (n : Int)
  | vfloat (fnum : Int) (fden : Nat)
  | vstr (s : String)
  | vlist (l : List PyVal)
  | vdict (d : List (String × PyVal))

/-- Python exceptions relevant to `get_data_dicts`:  `AttributeError`
(e.g. `.keys()` on a non-dict) and `AssertionError` are caught by the
per-patient handler; `KeyError` (missing dict key) and `TypeError`
(subscripting a non-dict, comparing a string with an int) are not. -/
inductive PyErr where
  | attrErr
  | keyErr
  | typeErr
  | assertErr
deriving DecidableEq

/-- Exact fraction `num / den`, modelling the float proportions passed
to the split functions. -/
structure Frac where
  num : Int
  den : Nat
deriving DecidableEq

/-- First-match lookup in an association list, like `d[k]` on a Python
dict (whose keys are unique). -/
def dictGet (d : List (String × α)) (k : String) : Option α :=
  match d with
  | [] => none
  | (k', v) :: rest => if k' = k then some v else dictGet rest k

/-- Membership test, like `k in d` on a Python dict. -/
def dictMem (d : List (String × α)) (k : String) : Bool :=
  match d with
  | [] => false
  | (k', _) :: rest => if k' = k then true else dictMem rest k

/-- Python dict assignment `d[k] = v`: update in place if the key is
present (keeping its position), append otherwise. -/
def dictSet (d : List (String × α)) (k : String) (v : α) : List (String × α) :=
  match d with
  | [] => [(k, v)]
  | (k', v') :: rest =>
    if k' = k then (k', v) :: rest else (k', v') :: dictSet rest k v

/-- Python `d.pop(k, None)`: remove the key if present. -/
def dictPop (d : List (String × α)) (k : String) : List (String × α) :=
  d.filter (fun p => p.1 ≠ k)

/-- Keys of a Python dict, in insertion order (`list(d.keys())`). -/
def dictKeys (d : List (String × α)) : List String := d.map Prod.fst

/-- Lexicographic order on characters, by code point, as Python compares
strings. -/
def charLt (a b : Char) : Bool := a.toNat < b.toNat

/-- Strict lexicographic order on character lists (Python string `<`). -/
def strLtL : List Char → List Char → Bool
  | [], [] => false
  | [], _ :: _ => true
  | _ :: _, [] => false
  | a :: as, b :: bs =>
    if charLt a b then true
    else if charLt b a then false
    else strLtL as bs

/-- Python string `<` (lexicographic by code point). -/
def strLt (a b : String) : Bool := strLtL a.data b.data

/-- Python string `<=`. -/
def strLe (a b : String) : Bool := !(strLt b a)

/-- Python comparison on `(string, string)` tuples: lexicographic, first
component first.  This is the order used by `sorted(zip(pt_ids, BL_dates))`. -/
def pairLe (a b : String × String) : Bool :=
  if strLt a.1 b.1 then true
  else if strLt b.1 a.1 then false
  else strLe a.2 b.2

/-- Order on `(id, date)` pairs used by `make_train_val_split`'s
`sorted(..., key=lambda x: x[1])`: compares the date only (stable sort
preserves input order among equal dates). -/
def dateLe (a b : String × String) : Bool := strLe a.2 b.2

/-- Propositional form of `pairLe`, for use with `List.insertionSort`
(which, being stable and structurally recursive, computes the same
result as Python's stable `sorted` and evaluates in the kernel). -/
def pairLeP (a b : String × String) : Prop := pairLe a b = true

instance : DecidableRel pairLeP := fun a b => inferInstanceAs (Decidable (_ = true))

/-- Propositional form of `strLe`. -/
def strLeP (a b : String) : Prop := strLe a b = true

instance : DecidableRel strLeP := fun a b => inferInstanceAs (Decidable (_ = true))

/-- Propositional form of `dateLe`. -/
def dateLeP (a b : String × String) : Prop := dateLe a b = true

instance : DecidableRel dateLeP := fun a b => inferInstanceAs (Decidable (_ = true))

/-- Python 3 `round(n * f)` for a natural `n` and proportion `f`
(nearest integer, ties to even), computed exactly on the fraction
`(n * f.num) / f.den`. -/
def pythonRound (n : Nat) (f : Frac) : Int :=
  let a : Int := n * f.num
  let b : Int := f.den
  let fl : Int := Int.fdiv a b
  let r : Int := a - fl * b
  if 2 * r < b then fl
  else if b < 2 * r then fl + 1
  else if fl % 2 = 0 then fl else fl + 1

/-- Python `math.floor(n * f)` for a natural `n` and proportion `f`,
computed exactly. -/
def floorMul (n : Nat) (f : Frac) : Int :=
  Int.fdiv (n * f.num) f.den

-- ===== load_dataset (lines 225-279) =====

/-- Baseline-date list construction of `load_dataset` (lines 245-250):
for each patient id, the patient's `BL_date` if present (a string in
every well-formed record), else the default `"2021-01-01"`. -/
def blDateOf (in_dict : List (String × PyVal)) (pid : String) : String :=
  match dictGet in_dict pid with
  | some (.vdict pd) =>
    match dictGet pd "BL_date" with
    | some (.vstr s) => s
    | _ => "2021-01-01"
  | _ => "2021-01-01"

/-- The `ordered_split` branch of `load_dataset` (lines 252-264):
`sorted(zip(pt_ids, BL_dates))` sorts the `(patient id, date)` pairs by
Python tuple order (`pairLe`), `test_n = round(len(pt_ids) * test_prop)`,
train takes positions `0 .. len - test_n - 1`, test takes positions
`len - test_n + 1 .. len - 1` (position `len - test_n` is in neither). -/
def orderedSplitIds (in_dict : List (String × PyVal)) (test_prop : Frac) :
    List String × List String :=
  let pt_ids := dictKeys in_dict
  let BL_dates := pt_ids.map (blDateOf in_dict)
  let sorted_pt_BL_dates := (pt_ids.zip BL_dates).insertionSort pairLeP
  let test_n : Nat := (pythonRound pt_ids.length test_prop).toNat
  let train_ids := (sorted_pt_BL_dates.take (pt_ids.length - test_n)).map Prod.fst
  let test_ids := (sorted_pt_BL_dates.drop (pt_ids.length - test_n + 1)).map Prod.fst
  (train_ids, test_ids)

/-- The shuffled branch of `load_dataset` (lines 266-277), parametrised
by the seed-42 `sklearn.utils.shuffle` of the zipped `(id, date)` lists:
test takes shuffled positions `0 .. test_n - 1`, train takes positions
`test_n + 1 .. len - 1`. -/
def shuffledSplitIds (shufflePairs : List (String × String) → List (String × String))
    (in_dict : List (String × PyVal)) (test_prop : Frac) :
    List String × List String :=
  let pt_ids := dictKeys in_dict
  let BL_dates := pt_ids.map (blDateOf in_dict)
  let shuffled := shufflePairs (pt_ids.zip BL_dates)
  let test_n : Nat := (pythonRound shuffled.length test_prop).toNat
  let test_ids := (shuffled.take test_n).map Prod.fst
  let train_ids := (shuffled.drop (test_n + 1)).map Prod.fst
  (train_ids, test_ids)

/-- Function `load_dataset` (lines 225-279) after JSON parsing: pop the reserved
corrupt patient `SU2bae8dc`, then either return everything as train
(`train_only`) or split the patient ids and rebuild the two dicts by
lookup (`train_out[study_id] = in_dict[study_id]`). -/
def load_dataset (shufflePairs : List (String × String) → List (String × String))
    (in_dict0 : List (String × PyVal)) (test_prop : Frac)
    (ordered_split train_only : Bool) :
    List (String × PyVal) × Option (List (String × PyVal)) :=
  let in_dict := dictPop in_dict0 "SU2bae8dc"
  if train_only then (in_dict, none)
  else
    let ids :=
      if ordered_split then orderedSplitIds in_dict test_prop
      else shuffledSplitIds shufflePairs in_dict test_prop
    let train_out := ids.1.map (fun sid => (sid, (dictGet in_dict sid).getD .vnone))
    let test_out := ids.2.map (fun sid => (sid, (dictGet in_dict sid).getD .vnone))
    (train_out, some test_out)

-- ===== get_data_dicts (lines 292-381) and its helpers =====

/-- Image-dictionary entry.  `emptyD` is the freshly-initialised `dict()`
of line 354 (overwritten in the same iteration); `single` is the
`np.stack([sag_img, trv_img])` of a non-sequence sample; `seqE` is the
per-visit list of stacked pairs of a sequence sample.  The pixel content
of a processed image is abstracted by the source path it was read from
(`data_dir + in_dict[...][...]`), which is all the extractor's
bookkeeping depends on. -/
inductive ImgEntry where
  | emptyD
  | single (sag trv : String)
  | seqE (pairs : List (String × String))
deriving DecidableEq

/-- Covariate entry: a Python dict from covariate name to value
(plain `dict()` in non-sequence mode, `defaultdict(list)` in sequence
mode, where values are lists grown by `append`). -/
def CovEntry := List (String × PyVal)

/-- Extractor state: the three dictionaries built by `get_data_dicts`. -/
structure ExtState where
  img_dict : List (String × ImgEntry)
  label_dict : List (String × Int)
  cov_dict : List (String × CovEntry)

/-- Configuration flags of `get_data_dicts`; `update_num` is modelled by
the string that `f"_{update_num}"` would append. -/
structure ExtCfg where
  data_dir : String
  update_num : Option String
  silent_trial : Bool
  last_visit_only : Bool
  seq : Bool
  include_baseline_date : Bool

/-- Python `x is None`. -/
def isNone : PyVal → Bool
  | .vnone => true
  | _ => false

/-- Python `x in ["NA", None]` (equality against a string and `None`;
false for every other type, as Python `==` across types is). -/
def isNAorNone : PyVal → Bool
  | .vnone => true
  | .vstr s => s = "NA"
  | _ => false

/-- Python `v < m` for an int bound `m`: defined on ints and floats
(exact fractions with positive denominator), `TypeError` otherwise. -/
def pyLtInt (v : PyVal) (m : Int) : Except PyErr Bool :=
  match v with
  | .vint n => .ok (decide (n < m))
  | .vfloat a b => .ok (decide (a < m * (b : Int)))
  | _ => .error .typeErr

/-- Python `v > m` for an int bound `m`. -/
def pyGtInt (v : PyVal) (m : Int) : Except PyErr Bool :=
  match v with
  | .vint n => .ok (decide (m < n))
  | .vfloat a b => .ok (decide (m * (b : Int) < a))
  | _ => .error .typeErr

/-- Function `get_surgery_label` (lines 419-430): accept a bare `int`, or the
first `int` element of a `list`; `None` otherwise (including when the
side value is not a dict at all). -/
def get_surgery_label : PyVal → Option Int
  | .vdict side_dict =>
    match dictGet side_dict "surgery" with
    | some (.vint n) => some n
    | some (.vlist l) =>
      match l.filterMap (fun v => match v with | .vint n => some n | _ => none) with
      | [] => none
      | n :: _ => some n
    | _ => none
  | _ => none

/-- List `append` on a covariate value (`defaultdict(list)` semantics:
a missing key reads as `[]`; append on the list value). -/
def pyAppend (cur v : PyVal) : PyVal :=
  match cur with
  | .vlist l => .vlist (l ++ [v])
  | x => x

/-- Sex normalisation of `assign_covariates`: keep an `int` as is, else
`1 if sex == "M" else 2`. -/
def normSex : PyVal → Int
  | .vint n => n
  | .vstr s => if s = "M" then 1 else 2
  | _ => 2

/-- Function `assign_images` (lines 433-445) with `split_view=False`: overwrite
with the stacked pair in non-sequence mode, append to the per-visit list
in sequence mode. -/
def assign_images (img_dict : List (String × ImgEntry)) (dict_key : String)
    (sag_img trv_img : String) (seq : Bool) : List (String × ImgEntry) :=
  if ¬ seq then dictSet img_dict dict_key (.single sag_img trv_img)
  else
    let cur := (dictGet img_dict dict_key).getD (.seqE [])
    let cur' := match cur with
      | .seqE l => ImgEntry.seqE (l ++ [(sag_img, trv_img)])
      | e => e
    dictSet img_dict dict_key cur'

/-- Function `assign_covariates` (lines 448-469): set scalar covariates in
non-sequence mode, append to list covariates in sequence mode;
`BL_date` is set (not appended) when provided and not `None`. -/
def assign_covariates (cov_dict : List (String × CovEntry)) (dict_key : String)
    (machine sex age_wks : PyVal) (seq : Bool) (bl_date : Option PyVal) :
    List (String × CovEntry) :=
  let entry : CovEntry := (dictGet cov_dict dict_key).getD []
  let entry' : CovEntry :=
    if ¬ seq then
      let e1 := dictSet entry "US_machine" machine
      let e2 := dictSet e1 "Sex" (.vint (normSex sex))
      let e3 := dictSet e2 "Age_wks" age_wks
      match bl_date with
      | some v => if isNone v then e3 else dictSet e3 "BL_date" v
      | none => e3
    else
      let c1 := (dictGet entry "US_machine").getD (.vlist [])
      let e1 := dictSet entry "US_machine" (pyAppend c1 machine)
      let c2 := (dictGet e1 "Sex").getD (.vlist [])
      let e2 := dictSet e1 "Sex" (pyAppend c2 (.vint (normSex sex)))
      let c3 := (dictGet e2 "Age_wks").getD (.vlist [])
      let e3 := dictSet e2 "Age_wks" (pyAppend c3 age_wks)
      match bl_date with
      | some v => if isNone v then e3 else dictSet e3 "BL_date" v
      | none => e3
  dictSet cov_dict dict_key entry'

/-- The post-insertion assertion block (lines 371-374): every assertion
holds for the entry just written, so this check evaluates each one and
reports `assertErr` if any value is `None` (in non-sequence mode a
missing key would raise `KeyError` instead; in sequence mode the
`defaultdict` reads a missing key as `[]`). -/
def postAsserts (st : ExtState) (dict_key : String) (seq : Bool) : Option PyErr :=
  match dictGet st.label_dict dict_key with
  | none => some .keyErr
  | some _ =>
    match dictGet st.img_dict dict_key with
    | none => some .keyErr
    | some _ =>
      let covE := (dictGet st.cov_dict dict_key).getD []
      let check := fun (field : String) =>
        match dictGet covE field with
        | some v => if isNone v then some PyErr.assertErr else none
        | none => if seq then none else some PyErr.keyErr
      match dictGet st.cov_dict dict_key with
      | none => some .keyErr
      | some _ =>
        match check "Sex" with
        | some e => some e
        | none => check "Age_wks"

/-- The key-initialisation step of a visit (lines 353-356):
`if dict_key not in img_dict: img_dict[dict_key] = dict()/list()`, and
likewise for the covariate dict (`dict()`/`defaultdict(list)`); the
label dict is untouched.  These mutations happen BEFORE the images are
loaded, and persist if image loading then raises. -/
def visitInit (cfg : ExtCfg) (st : ExtState) (dict_key : String) : ExtState :=
  ⟨(if ¬ dictMem st.img_dict dict_key then
      dictSet st.img_dict dict_key (if ¬ cfg.seq then .emptyD else .seqE [])
    else st.img_dict),
   st.label_dict,
   (if ¬ dictMem st.cov_dict dict_key then
      dictSet st.cov_dict dict_key []
    else st.cov_dict)⟩

/-- The assignment tail of a visit (lines 367-374): stack/append the
two processed images, write the label, write/append the covariates, and
run the post-insertion assertions. -/
def visitAssign (cfg : ExtCfg) (st1 : ExtState) (dict_key : String)
    (sag_img trv_img : String) (surgery : Int) (machine sex age_wks : PyVal)
    (bl_date : Option PyVal) : ExtState × Option PyErr :=
  let st2 : ExtState :=
    ⟨assign_images st1.img_dict dict_key sag_img trv_img cfg.seq,
     dictSet st1.label_dict dict_key surgery,
     assign_covariates st1.cov_dict dict_key machine sex age_wks cfg.seq bl_date⟩
  match postAsserts st2 dict_key cfg.seq with
  | some e => (st2, some e)
  | none => (st2, none)

/-- Per-visit body of `get_data_dicts` (lines 321-374).  Returns the
(possibly partially updated) state together with the exception raised,
if any: Python mutations performed before an exception persist. -/
def processVisit (cfg : ExtCfg) (study_id : String)
    (patient_dict : List (String × PyVal)) (side : String)
    (side_dict : List (String × PyVal)) (surgery : Int) (us_num : String)
    (st : ExtState) : ExtState × Option PyErr :=
  match dictGet side_dict us_num with
  | none => (st, some .keyErr)
  | some visit =>
    match visit with
    | .vdict vd =>
      match dictGet vd "Age_wks" with
      | none => (st, some .keyErr)
      | some age0 =>
        if isNAorNone age0 ∨ ¬ (dictMem vd "sag" ∧ dictMem vd "trv") then (st, none)
        else
          let dict_key := study_id ++ "_" ++ side
            ++ (if ¬ cfg.seq then "_" ++ us_num else "")
            ++ (match cfg.update_num with | some u => "_" ++ u | none => "")
          match dictGet vd "US_machine" with
          | none => (st, some .keyErr)
          | some machine =>
            match dictGet patient_dict "Sex" with
            | none => (st, some .keyErr)
            | some sex =>
              let age_wks := age0
              match (if cfg.include_baseline_date then
                       (dictGet patient_dict "BL_date").map some
                     else some none : Option (Option PyVal)) with
              | none => (st, some .keyErr)
              | some bl_date =>
                if surgery ≠ 0 ∧ surgery ≠ 1 then (st, none)
                else
                  match pyLtInt age_wks 0 with
                  | .error e => (st, some e)
                  | .ok neg =>
                    if neg then (st, none)
                    else
                      match pyGtInt age_wks (52 * 10) with
                      | .error e => (st, some e)
                      | .ok over =>
                        if over then (st, none)
                        else
                          let st1 := visitInit cfg st dict_key
                          match dictGet vd "sag", dictGet vd "trv" with
                          | some (.vstr sagF), some (.vstr trvF) =>
                            visitAssign cfg st1 dict_key (cfg.data_dir ++ sagF)
                              (cfg.data_dir ++ trvF) surgery machine sex age_wks bl_date
                          | _, _ => (st1, some .typeErr)
    | _ => (st, some .typeErr)

/-- Iterate `processVisit` over the visit keys of one side, aborting on
the first exception (whose partial state persists). -/
def processVisits (cfg : ExtCfg) (study_id : String)
    (patient_dict : List (String × PyVal)) (side : String)
    (side_dict : List (String × PyVal)) (surgery : Int) :
    List String → ExtState → ExtState × Option PyErr
  | [], st => (st, none)
  | u :: us, st =>
    match processVisit cfg study_id patient_dict side side_dict surgery u st with
    | (st', none) => processVisits cfg study_id patient_dict side side_dict surgery us st'
    | r => r

/-- Per-side loop of `get_data_dicts` (lines 311-374): resolve the
surgery label, enumerate visit keys, apply the `last_visit_only`
reduction — `sorted(us_nums)[-1]` yields a STRING, over whose
characters the visit loop then iterates — and process the visits. -/
def processSides (cfg : ExtCfg) (study_id : String)
    (patient_dict : List (String × PyVal)) :
    List String → ExtState → ExtState × Option PyErr
  | [], st => (st, none)
  | side :: rest, st =>
    let sideVal := (dictGet patient_dict side).getD .vnone
    let surgery := get_surgery_label sideVal
    match sideVal with
    | .vdict side_dict =>
      let us_keys := (dictKeys side_dict).filter (fun k => k ≠ "surgery")
      match surgery with
      | none => processSides cfg study_id patient_dict rest st
      | some s =>
        if us_keys = [] then processSides cfg study_id patient_dict rest st
        else
          let us_nums :=
            if cfg.last_visit_only then
              (((us_keys.insertionSort strLeP).getLast?.getD "").data).map Char.toString
            else us_keys
          match processVisits cfg study_id patient_dict side side_dict s us_nums st with
          | (st', none) => processSides cfg study_id patient_dict rest st'
          | r => r
    | _ => (st, some .attrErr)

/-- Line 310, `sides = np.setdiff1d(list(in_dict[study_id].keys()), ['BL_date', 'Sex'])`
(line 310): the remaining keys, sorted and deduplicated. -/
def sidesOf (patient_dict : List (String × PyVal)) : List String :=
  (((dictKeys patient_dict).filter
    (fun k => k ≠ "BL_date" ∧ k ≠ "Sex")).insertionSort strLeP).dedup

/-- Patient loop of `get_data_dicts` (lines 308-378): the per-patient
`try` catches `AttributeError` and `AssertionError` (the patient's
remaining work is skipped, mutations made so far persist, the loop
continues); every other exception propagates and aborts the whole
extraction. -/
def processPatients (cfg : ExtCfg) :
    List (String × PyVal) → ExtState → Except PyErr ExtState
  | [], st => .ok st
  | (study_id, pv) :: rest, st =>
    let r : ExtState × Option PyErr :=
      match pv with
      | .vdict patient_dict => processSides cfg study_id patient_dict (sidesOf patient_dict) st
      | _ => (st, some .attrErr)
    match r with
    | (st', none) => processPatients cfg rest st'
    | (st', some .attrErr) => processPatients cfg rest st'
    | (st', some .assertErr) => processPatients cfg rest st'
    | (_, some e) => .error e

/-- Function `get_data_dicts` (lines 292-381): run the patient loop from empty
dictionaries and return `(img_dict, label_dict, cov_dict, ids)` with
`ids = list(img_dict.keys())`. -/
def get_data_dicts (cfg : ExtCfg) (in_dict : List (String × PyVal)) :
    Except PyErr
      (List (String × ImgEntry) × List (String × Int) ×
       List (String × CovEntry) × List String) :=
  match processPatients cfg in_dict ⟨[], [], []⟩ with
  | .ok st => .ok (st.img_dict, st.label_dict, st.cov_dict, dictKeys st.img_dict)
  | .error e => .error e

-- ===== split engine (lines 384-415) =====

/-- The list comprehension `[train_cov_dict[id_]['BL_date'] for id_ in
train_study_ids]` of `make_train_val_split` (line 394): `KeyError` when
an id or its `BL_date` is missing; the extracted dates are strings in
every record the pipeline produces (a non-string would make Python's
`sorted` comparisons fail with `TypeError` anyway, which is how it is
modelled). -/
def blDates (cov : List (String × CovEntry)) : List String → Except PyErr (List String)
  | [] => .ok []
  | id :: rest =>
    match dictGet cov id with
    | none => .error .keyErr
    | some e =>
      match dictGet e "BL_date" with
      | none => .error .keyErr
      | some (.vstr s) => (blDates cov rest).map (fun ds => s :: ds)
      | some _ => .error .typeErr

/-- Function `make_train_val_split` (lines 391-415).  `shuffleIdx` is
`sklearn.utils.shuffle(·, random_state=42)` on index lists and `sss` is
`StratifiedShuffleSplit(n_splits=1, train_size=split, random_state=42)`;
both are invoked with the fixed seed, hence pure functions of their
remaining arguments.  The ordered branch sorts ids by baseline date
(stable, date key only), takes the first `floor(len * split)` as the
train id set, partitions the index range by membership in that set, and
shuffles each part. -/
def make_train_val_split (shuffleIdx : List Nat → List Nat)
    (sss : List String → List Int → Frac → List (List Nat × List Nat))
    (train_study_ids : List String) (train_labels : List Int)
    (train_cov_dict : List (String × CovEntry)) (split : Frac)
    (ordered_split : Bool) :
    Except PyErr (List (List Nat × List Nat)) :=
  if ordered_split then
    match blDates train_cov_dict train_study_ids with
    | .error e => .error e
    | .ok date =>
      let sorted_id_date := (train_study_ids.zip date).insertionSort dateLeP
      let sorted_ids := sorted_id_date.map Prod.fst
      let end_idx : Nat := (floorMul sorted_ids.length split).toNat
      let train_ids := sorted_ids.take end_idx
      let train_idx := (List.range train_study_ids.length).filter
        (fun i => train_study_ids.getD i "" ∈ train_ids)
      let val_idx := (List.range train_study_ids.length).filter
        (fun i => ¬ train_study_ids.getD i "" ∈ train_ids)
      .ok [(shuffleIdx train_idx, shuffleIdx val_idx)]
  else .ok (sss train_study_ids train_labels split)

/-- Function `make_cross_validation_sets` (lines 384-388): the fold list of
`StratifiedKFold(n_splits=num_folds, shuffle=True, random_state=42)`,
a pure function of `(ids, labels, num_folds)` once the seed is fixed. -/
def make_cross_validation_sets
    (skf : List String → List Int → Nat → List (List Nat × List Nat))
    (train_study_ids : List String) (train_labels : List Int) (num_folds : Nat) :
    List (List Nat × List Nat) :=
  skf train_study_ids train_labels num_folds

-- ===== KidneyDataset (lines 188-213) =====

/-- Python `s.split("_")` (single-character separator), computed on the
character list so that it evaluates in the kernel. -/
def splitOnChar (sep : Char) : List Char → List (List Char)
  | [] => [[]]
  | c :: cs =>
    let r := splitOnChar sep cs
    if c = sep then [] :: r
    else
      match r with
      | [] => [[c]]
      | h :: t => (c :: h) :: t

/-- Python `id_.split("_")`. -/
def pySplitUnd (s : String) : List String :=
  (splitOnChar (Char.ofNat 95) s.data).map (fun l => String.mk l)

/-- Feature bundle built by `KidneyDataset.__getitem__`: the scaled
image tensor (per-entry exact fractions), and the `Age_wks` and
`Side_L` vectors when covariates are requested. -/
structure ItemData where
  img : List Frac
  age : Option (List Frac)
  side_l : Option (List Int)

/-- Division of one tensor entry by 255 (`torch.div(data['img'], 255)`). -/
def fracDiv255 (q : Frac) : Frac := ⟨q.num, q.den * 255⟩

/-- Conversion of one numeric covariate to a tensor entry; `none` for a
value `torch.FloatTensor` would reject. -/
def toFloatEntry : PyVal → Option Frac
  | .vint n => some ⟨n, 1⟩
  | .vfloat a b => some ⟨a, b⟩
  | _ => none

/-- The age vector of `__getitem__` (lines 203-206): a scalar
(`type(...) in [int, float, ...]`) is wrapped in a one-element list, a
list is used as is; anything else fails tensor conversion. -/
def ageVec : PyVal → Option (List Frac)
  | .vint n => some [⟨n, 1⟩]
  | .vfloat a b => some [⟨a, b⟩]
  | .vlist l => l.mapM toFloatEntry
  | _ => none

/-- Method `KidneyDataset.__getitem__` (lines 193-210): fetch the sample at
`index`, scale the image by 1/255, and, when covariates are requested,
attach the age vector and the side indicator
`[1 if id_.split("_")[1] == 'Left' else 0] * len(age)`.  `none` models
the exceptions of missing keys, a key with fewer than two `"_"` fields,
or a non-numeric age. -/
def KidneyDataset_getitem (image_dict : List (String × List Frac))
    (label_dict : List (String × Int)) (cov_dict : List (String × CovEntry))
    (study_ids : List String) (include_cov : Bool) (index : Nat) :
    Option (ItemData × Int × String) :=
  match study_ids.get? index with
  | none => none
  | some id_ =>
    match dictGet image_dict id_, dictGet label_dict id_, dictGet cov_dict id_ with
    | some img, some y, some cov =>
      let id_split := pySplitUnd id_
      let imgScaled := img.map fracDiv255
      if include_cov then
        match dictGet cov "Age_wks" with
        | none => none
        | some ageV =>
          match ageVec ageV with
          | none => none
          | some age =>
            match id_split.get? 1 with
            | none => none
            | some sideStr =>
              let side_l := List.replicate age.length (if sideStr = "Left" then 1 else 0)
              some (⟨imgScaled, some age, some side_l⟩, y, id_)
      else some (⟨imgScaled, none, none⟩, y, id_)
    | _, _, _ => none

-- ===== KidneyDataModule.val_dataloader (lines 114-131) and setup's
-- no-validation generator (line 67) =====

/-- Python dict comprehension `{k: f(k) for k in ks}`. -/
def dictOfPairs (ks : List String) (f : String → α) : List (String × α) :=
  ks.foldl (fun acc k => dictSet acc k (f k)) []

/-- The `(val_imgs_dict, val_labels_dict, val_cov_dict, val_ids)` tuple
a validation `KidneyDataset` is built from. -/
structure ValBundle where
  imgs : List (String × List Frac)
  labels : List (String × Int)
  covs : List (String × CovEntry)
  ids : List String

/-- The train-val generator installed by `setup` when validation is not
requested (line 67): `[(range(len(train_study_ids)), [])]`. -/
def no_validation_generator (n : Nat) : List (List Nat × List Nat) :=
  [(List.range n, [])]

/-- Method `KidneyDataModule.val_dataloader` (lines 114-131): select the
current fold's validation indices, index the study-id array with them,
return `None` if no ids were selected, otherwise the restricted
dictionaries (out-of-range folds or indices raise in Python; the model
is used under validity hypotheses). -/
def KidneyDataModule_val_dataloader
    (gen : List (List Nat × List Nat)) (fold : Nat)
    (train_study_ids : List String)
    (train_img_dict : List (String × List Frac))
    (train_label_dict : List (String × Int))
    (train_cov_dict : List (String × CovEntry)) : Option ValBundle :=
  match gen.get? fold with
  | none => none
  | some fp =>
    let val_ids := fp.2.map (fun i => train_study_ids.getD i "")
    if val_ids.length = 0 then none
    else some
      ⟨ dictOfPairs val_ids (fun i => (dictGet train_img_dict i).getD []),
        dictOfPairs val_ids (fun i => (dictGet train_label_dict i).getD 0),
        dictOfPairs val_ids (fun i => (dictGet train_cov_dict i).getD []),
        val_ids ⟩

-- ===== image preprocessing recursion (lines 587-620) =====

/-- Test whether `pat` starts the character list `l`. -/
def leadsWith : List Char → List Char → Bool
  | [], _ => true
  | _ :: _, [] => false
  | p :: ps, c :: cs => if p = c then leadsWith ps cs else false

/-- Test whether `pat` occurs as a contiguous run of `l`. -/
def hasSub (pat : List Char) : List Char → Bool
  | [] => leadsWith pat []
  | c :: cs => if leadsWith pat (c :: cs) then true else hasSub pat cs

/-- Python `pat in s` on strings (substring containment). -/
def strContains (s pat : String) : Bool := hasSub pat.data s.data

/-- Abstract filesystem for the image-processing recursion: the
dimensions of the image stored at each path, and path existence.  It is
constant during a call, matching the code: the only write
(`special_ST_preprocessing`'s cache save) happens on a branch that
performs no further recursion. -/
structure ImgFS where
  dims : String → Nat × Nat
  pathExists : String → Bool

/-- Cache path of `special_ST_preprocessing` (lines 591-595):
`"/".join(parts[:-2]) + "/Preprocessed/" + name.split('.')[0] +
"-preprocessed.png"` where `name` is the last `/`-component. -/
def out_img_filename (img_file : String) : String :=
  let parts := img_file.splitOn "/"
  let img_name := parts.getD (parts.length - 1) ""
  let img_folder := String.intercalate "/" (parts.take (parts.length - 2))
  img_folder ++ "/Preprocessed/" ++ ((img_name.splitOn ".").headD "") ++ "-preprocessed.png"

mutual

/-- Function `process_input_image` (lines 608-620), fuel-indexed: load the image
at `img_file`; if it is not exactly 256x256, fall through to
`special_ST_preprocessing` on the SAME path and return its result.
`none` means the call did not return within `fuel` nested calls. -/
def process_input_image (fs : ImgFS) : Nat → String → Option (Nat × Nat)
  | 0, _ => none
  | fuel + 1, img_file =>
    let fit_img := fs.dims img_file
    if fit_img.1 ≠ 256 ∨ fit_img.2 ≠ 256 then special_ST_preprocessing fs fuel img_file
    else some fit_img

/-- Function `special_ST_preprocessing` (lines 587-605), fuel-indexed: a path
containing `"preprocessed"` re-enters `process_input_image` on the SAME
path; otherwise the preprocessed 256x256 result is computed, cached and
reloaded (or an existing cache file is loaded directly). -/
def special_ST_preprocessing (fs : ImgFS) : Nat → String → Option (Nat × Nat)
  | 0, _ => none
  | fuel + 1, img_file =>
    if strContains img_file "preprocessed" then process_input_image fs fuel img_file
    else
      let out := out_img_filename img_file
      if fs.pathExists out then some (fs.dims out)
      else some (256, 256)

end

-- ===== shared helper lemmas =====

/-- Membership in a dict after an assignment. -/
lemma dictMem_dictSet (d : List (String × α)) (k k' : String) (v : α) :
    dictMem (dictSet d k v) k' = true ↔ (k' = k ∨ dictMem d k' = true) := by
  induction d with
  | nil =>
    by_cases h : k = k'
    · subst h
      simp [dictSet, dictMem]
    · have h' : ¬ k' = k := fun he => h he.symm
      simp [dictSet, dictMem, h, h']
  | cons hd tl ih =>
    obtain ⟨k0, v0⟩ := hd
    by_cases hk : k0 = k
    · subst hk
      by_cases hk' : k0 = k'
      · subst hk'
        simp [dictSet, dictMem]
      · have h2 : ¬ k' = k0 := fun he => hk' he.symm
        simp [dictSet, dictMem, hk', h2]
    · by_cases hk' : k0 = k'
      · subst hk'
        simp [dictSet, dictMem, hk]
      · simp [dictSet, dictMem, hk, hk', ih]

/-- Every pair of a dict after an assignment comes from the old dict or
carries the assigned value. -/
lemma mem_dictSet_val (d : List (String × α)) (k : String) (v : α) :
    ∀ p ∈ dictSet d k v, p ∈ d ∨ p.2 = v := by
  induction d with
  | nil =>
    intro p hp
    simp only [dictSet, List.mem_singleton] at hp
    right
    rw [hp]
  | cons hd tl ih =>
    intro p hp
    obtain ⟨k0, v0⟩ := hd
    simp only [dictSet] at hp
    by_cases hk : k0 = k
    · rw [if_pos hk] at hp
      rcases List.mem_cons.mp hp with h | h
      · right
        rw [h]
      · left
        exact List.mem_cons_of_mem _ h
    · rw [if_neg hk] at hp
      rcases List.mem_cons.mp hp with h | h
      · left
        rw [h]
        exact List.mem_cons_self _ _
      · rcases ih p h with h' | h'
        · exact Or.inl (List.mem_cons_of_mem _ h')
        · exact Or.inr h'

/-- Dict membership coincides with membership in the key list. -/
lemma dictMem_iff_mem_dictKeys (d : List (String × α)) (k : String) :
    dictMem d k = true ↔ k ∈ dictKeys d := by
  induction d with
  | nil => simp [dictMem, dictKeys]
  | cons hd tl ih =>
    obtain ⟨k0, v0⟩ := hd
    by_cases hk : k0 = k
    · subst hk
      simp [dictMem, dictKeys]
    · have hk2 : ¬ k = k0 := fun he => hk he.symm
      simp [dictMem, dictKeys, hk, hk2, ih]

-- ===== C9: termination of the image-processing recursion =====

/-- On a path that contains `"preprocessed"` and whose image is not
256x256, the mutual recursion never returns, at any recursion depth. -/
lemma imgrec_diverges (fs : ImgFS) (f : String)
    (hc : strContains f "preprocessed" = true)
    (hd : fs.dims f ≠ (256, 256)) :
    ∀ fuel, process_input_image fs fuel f = none ∧
      special_ST_preprocessing fs fuel f = none := by
  intro fuel
  induction fuel with
  | zero => exact ⟨rfl, rfl⟩
  | succ n ih =>
    have hcond : (fs.dims f).1 ≠ 256 ∨ (fs.dims f).2 ≠ 256 := by
      by_contra h
      push_neg at h
      exact hd (Prod.ext h.1 h.2)
    constructor
    · simp only [process_input_image, if_pos hcond]
      exact ih.2
    · simp only [special_ST_preprocessing, hc, if_pos]
      exact ih.1

/-- C9: corrected.  `process_input_image` does NOT terminate for every
path: on a path containing `"preprocessed"` whose stored image is not
256x256 (here dimensions 100x100), the mutual recursion with
`special_ST_preprocessing` never bottoms out — the call returns no
result at any recursion depth. -/
theorem C9_counterexample :
    ¬ ∃ fuel r, process_input_image ⟨fun _ => (100, 100), fun _ => false⟩ fuel
        "scan-preprocessed.png" = some r := by
  rintro ⟨fuel, r, hr⟩
  have hdiv := (imgrec_diverges ⟨fun _ => (100, 100), fun _ => false⟩ "scan-preprocessed.png"
    (by decide) (by decide) fuel).1
  rw [hdiv] at hr
  exact Option.noConfusion hr

/-- C9 (amended): `process_input_image` terminates (with a result,
within two nested calls) iff the image at the path is exactly 256x256
or the path does not contain the substring `"preprocessed"`; in the
remaining case the mutual recursion diverges. -/
theorem C9_termination_iff (fs : ImgFS) (f : String) :
    (fs.dims f = (256, 256) ∨ strContains f "preprocessed" = false →
      ∀ fuel, 2 ≤ fuel → ∃ r, process_input_image fs fuel f = some r) ∧
    (fs.dims f ≠ (256, 256) → strContains f "preprocessed" = true →
      ∀ fuel, process_input_image fs fuel f = none) := by
  constructor
  · intro h fuel hfuel
    obtain ⟨k, rfl⟩ : ∃ k, fuel = k + 2 := ⟨fuel - 2, by omega⟩
    by_cases hdim : fs.dims f = (256, 256)
    · refine ⟨fs.dims f, ?_⟩
      have hcond : ¬ ((fs.dims f).1 ≠ 256 ∨ (fs.dims f).2 ≠ 256) := by
        rw [hdim]
        simp
      simp only [process_input_image, if_neg hcond]
    · have hc : strContains f "preprocessed" = false := by
        rcases h with h | h
        · exact absurd h hdim
        · exact h
      have hcond : (fs.dims f).1 ≠ 256 ∨ (fs.dims f).2 ≠ 256 := by
        by_contra hcc
        push_neg at hcc
        exact hdim (Prod.ext hcc.1 hcc.2)
      simp only [process_input_image, if_pos hcond, special_ST_preprocessing, hc,
        Bool.false_eq_true, if_false]
      by_cases hex : fs.pathExists (out_img_filename f) = true
      · exact ⟨_, by rw [if_pos hex]⟩
      · exact ⟨_, by rw [if_neg hex]⟩
  · intro hd hc fuel
    exact (imgrec_diverges fs f hc hd fuel).1

/-- Closed instance of `C9_termination_iff`: on a path without
`"preprocessed"`, the call returns a result at fuel 2. -/
theorem C9_termination_iff_witness :
    ∃ r, process_input_image ⟨fun _ => (100, 100), fun _ => false⟩ 2 "a.png" = some r :=
  (C9_termination_iff ⟨fun _ => (100, 100), fun _ => false⟩ "a.png").1
    (Or.inr (by decide)) 2 (by decide)

-- ===== concrete example inputs =====

/-- A well-formed visit: both image paths, integer age 10, machine X. -/
def exVisit : PyVal := .vdict [("sag", .vstr "a.png"), ("trv", .vstr "b.png"),
  ("Age_wks", .vint 10), ("US_machine", .vstr "X"), ("surgery", .vint 1)]

/-- The spec's scenario patient: male, baseline 2021-01-01, one left
visit with surgery label 1. -/
def exPatient : PyVal := .vdict [("Sex", .vstr "M"), ("BL_date", .vstr "2021-01-01"),
  ("Left", .vdict [("1", exVisit), ("surgery", .vint 1)])]

/-- The same patient with the patient-level `Sex` field removed. -/
def exPatientNoSex : PyVal := .vdict [("BL_date", .vstr "2021-01-01"),
  ("Left", .vdict [("1", exVisit), ("surgery", .vint 1)])]

/-- A patient whose left side has visit numbers `"1"` and `"10"`. -/
def exPatientMulti : PyVal := .vdict [("Sex", .vint 1),
  ("Left", .vdict [("1", exVisit), ("10", exVisit), ("surgery", .vint 1)])]

/-- Sequence-mode extractor configuration (the training pipeline's
`seq=not args.single_visit` with default flags). -/
def exCfgSeq : ExtCfg := ⟨"data/", none, false, false, true, false⟩

/-- Non-sequence, last-visit-only configuration (the test-set call
`get_data_dicts(..., last_visit_only=args.single_visit)`). -/
def exCfgLast : ExtCfg := ⟨"data/", none, false, true, false, false⟩

-- ===== C4: last_visit_only iterates the characters of the maximal
-- visit key =====

/-- C4: code bug.  With `last_visit_only`, `us_nums = sorted(us_nums)[-1]`
is a STRING, and the visit loop then iterates over its characters: for
visit keys `{"1", "10"}` the maximal key is `"10"`, the loop runs over
`["1", "0"]` — processing visit `"1"` (not a visit of the maximal key
`"10"`) and then raising an uncaught `KeyError` on `"0"`, which aborts
the whole extraction instead of processing exactly the visits of the
lexicographically-maximal visit number. -/
theorem C4_last_visit_only_bug :
    get_data_dicts exCfgLast [("P1", exPatientMulti)] = .error .keyErr ∧
    (((["1", "10"].insertionSort strLeP).getLast?.getD "").data).map Char.toString =
      ["1", "0"] :=
  ⟨rfl, by decide⟩

-- ===== C3: which structural errors are caught at the patient level =====

/-- Test whether a Python value is a dict. -/
def isDict : PyVal → Bool
  | .vdict _ => true
  | _ => false

/-- A patient whose record value is not a dict contributes nothing: the
first `.keys()` call raises `AttributeError`, which the per-patient
handler catches before any mutation, and the loop continues. -/
lemma processPatients_nondict (cfg : ExtCfg) (d2 : List (String × PyVal))
    (sid : String) (v : PyVal) (h : isDict v = false) :
    ∀ (d1 : List (String × PyVal)) (st : ExtState),
      processPatients cfg (d1 ++ (sid, v) :: d2) st = processPatients cfg (d1 ++ d2) st := by
  intro d1
  induction d1 with
  | nil =>
    intro st
    cases v with
    | vdict pd => simp [isDict] at h
    | vnone => rfl
    | vint n => rfl
    | vfloat a b => rfl
    | vstr s => rfl
    | vlist l => rfl
  | cons hd tl ih =>
    intro st
    obtain ⟨sid0, pv0⟩ := hd
    show processPatients cfg ((sid0, pv0) :: (tl ++ (sid, v) :: d2)) st =
      processPatients cfg ((sid0, pv0) :: (tl ++ d2)) st
    simp only [processPatients]
    rcases hr : (match pv0 with
      | .vdict patient_dict => processSides cfg sid0 patient_dict (sidesOf patient_dict) st
      | _ => (st, some PyErr.attrErr)) with ⟨st', err⟩
    rw [hr]
    cases err with
    | none => exact ih st'
    | some e =>
      cases e with
      | attrErr => exact ih st'
      | assertErr => exact ih st'
      | keyErr => rfl
      | typeErr => rfl

/-- C3: counterexample.  A record in which patient `P1` lacks the
patient-level `Sex` field (and a further well-formed patient `P2`
follows) makes the WHOLE extraction fail with an uncaught `KeyError`:
the patient is not skipped and the remaining patients are not
extracted. -/
theorem C3_counterexample :
    get_data_dicts exCfgSeq [("P1", exPatientNoSex), ("P2", exPatient)] =
      .error .keyErr := rfl

/-- C3 (amended): the structural errors caught at the patient level are
`AttributeError`s (and assertion failures): a patient entry that is not
a dict is skipped entirely — removing it does not change the output —
and extraction continues; a missing patient-level `Sex`, by contrast,
raises `KeyError`, which no handler catches. -/
theorem C3_attrerr_patient_skipped (cfg : ExtCfg) (d1 d2 : List (String × PyVal))
    (sid : String) (v : PyVal) (h : isDict v = false) :
    get_data_dicts cfg (d1 ++ (sid, v) :: d2) = get_data_dicts cfg (d1 ++ d2) := by
  unfold get_data_dicts
  rw [processPatients_nondict cfg d2 sid v h d1]

/-- Closed instance of `C3_attrerr_patient_skipped`: a non-dict patient
entry is dropped without affecting the rest of the extraction. -/
theorem C3_attrerr_patient_skipped_witness :
    get_data_dicts exCfgSeq [("BAD", .vstr "junk"), ("P2", exPatient)] =
      get_data_dicts exCfgSeq [("P2", exPatient)] :=
  C3_attrerr_patient_skipped exCfgSeq [] [("P2", exPatient)] "BAD" (.vstr "junk") rfl

-- ===== C6: every stored label is 0 or 1 =====

/-- Invariant: every value of the label dictionary is 0 or 1. -/
def labelsBinary (st : ExtState) : Prop := ∀ p ∈ st.label_dict, p.2 = 0 ∨ p.2 = 1

/-- Step principle for the visit/side loops: the loop body's match
(`continue on success, stop on an exception`) preserves any property the
body's result and the continuation preserve. -/
lemma labelsBinary_step (p : ExtState × Option PyErr)
    (cont : ExtState → ExtState × Option PyErr)
    (hp : labelsBinary p.1)
    (hcont : ∀ st, labelsBinary st → labelsBinary (cont st).1) :
    labelsBinary (match p with
      | (st', none) => cont st'
      | r => r).1 := by
  obtain ⟨st', err⟩ := p
  cases err with
  | none => exact hcont st' hp
  | some e => exact hp

/-- Step principle for the patient loop: caught errors continue with the
partial state, uncaught ones abort with no `.ok` result. -/
lemma labelsBinary_stepPat (p : ExtState × Option PyErr)
    (cont : ExtState → Except PyErr ExtState)
    (hp : labelsBinary p.1)
    (hcont : ∀ st, labelsBinary st → ∀ stf, cont st = .ok stf → labelsBinary stf) :
    ∀ stf, (match p with
      | (st', none) => cont st'
      | (st', some .attrErr) => cont st'
      | (st', some .assertErr) => cont st'
      | (_, some e) => (.error e : Except PyErr ExtState)) = .ok stf → labelsBinary stf := by
  obtain ⟨st', err⟩ := p
  cases err with
  | none => exact hcont st' hp
  | some e =>
    cases e with
    | attrErr => exact hcont st' hp
    | assertErr => exact hcont st' hp
    | keyErr => intro stf hok; exact Except.noConfusion hok
    | typeErr => intro stf hok; exact Except.noConfusion hok

/-- Lemma: `visitAssign` writes the (already validated) label at one key and
preserves binary labels. -/
lemma visitAssign_labelsBinary (cfg : ExtCfg) (st1 : ExtState) (key sag trv : String)
    (surg : Int) (machine sex age : PyVal) (bl : Option PyVal)
    (st' : ExtState) (err : Option PyErr)
    (hres : visitAssign cfg st1 key sag trv surg machine sex age bl = (st', err))
    (h : labelsBinary st1) (hsurg : surg = 0 ∨ surg = 1) :
    labelsBinary st' := by
  unfold visitAssign at hres
  dsimp only at hres
  split at hres <;>
    (injection hres with e1 e2
     subst e1
     intro p hp
     rcases mem_dictSet_val _ _ _ p hp with hmem | hval
     · exact h p hmem
     · rw [hval]; exact hsurg)

set_option maxHeartbeats 1000000 in
lemma processVisit_labelsBinary (cfg : ExtCfg) (sid : String)
    (pd : List (String × PyVal)) (side : String) (sd : List (String × PyVal))
    (surg : Int) (u : String) (st : ExtState) (h : labelsBinary st) :
    labelsBinary (processVisit cfg sid pd side sd surg u st).1 := by
  rcases hres : processVisit cfg sid pd side sd surg u st with ⟨st', err⟩
  unfold processVisit at hres
  dsimp only at hres
  repeat' split at hres
  all_goals first
    | (injection hres with e1 e2
       subst e1
       subst e2
       exact h)
    | (refine visitAssign_labelsBinary _ _ _ _ _ _ _ _ _ _ _ _ hres h ?_
       omega)

lemma processVisits_labelsBinary (cfg : ExtCfg) (sid : String)
    (pd : List (String × PyVal)) (side : String) (sd : List (String × PyVal))
    (surg : Int) :
    ∀ (us : List String) (st : ExtState), labelsBinary st →
      labelsBinary (processVisits cfg sid pd side sd surg us st).1 := by
  intro us
  induction us with
  | nil => intro st h; exact h
  | cons u rest ih =>
    intro st h
    unfold processVisits
    exact labelsBinary_step _ _ (processVisit_labelsBinary cfg sid pd side sd surg u st h) ih

lemma processSides_labelsBinary (cfg : ExtCfg) (sid : String)
    (pd : List (String × PyVal)) :
    ∀ (sides : List String) (st : ExtState), labelsBinary st →
      labelsBinary (processSides cfg sid pd sides st).1 := by
  intro sides
  induction sides with
  | nil => intro st h; exact h
  | cons side rest ih =>
    intro st h
    unfold processSides
    dsimp only
    split
    · split
      · exact ih st h
      · split
        · exact ih st h
        · exact labelsBinary_step _ _
            (processVisits_labelsBinary cfg sid pd side _ _ _ st h) ih
    · exact h

lemma processPatients_labelsBinary (cfg : ExtCfg) :
    ∀ (pats : List (String × PyVal)) (st : ExtState), labelsBinary st →
      ∀ stf, processPatients cfg pats st = .ok stf → labelsBinary stf := by
  intro pats
  induction pats with
  | nil =>
    intro st h stf hok
    cases hok
    exact h
  | cons hd tl ih =>
    intro st h stf hok
    obtain ⟨sid, pv⟩ := hd
    unfold processPatients at hok
    refine labelsBinary_stepPat _ _ ?_ (fun st' h' => ih st' h') stf hok
    cases pv with
    | vdict patient_dict => exact processSides_labelsBinary cfg sid patient_dict (sidesOf patient_dict) st h
    | vnone => exact h
    | vint n => exact h
    | vfloat a b => exact h
    | vstr s => exact h
    | vlist l => exact h

/-- C6: confirmed.  Whenever `get_data_dicts` completes, every value in
its label dictionary is 0 or 1: `get_surgery_label` resolves a bare int
or the first int of a list (`None` — and the side skipped — otherwise),
and a key is only written after the `surgery not in [0, 1]` guard. -/
theorem C6_labels_binary (cfg : ExtCfg) (in_dict : List (String × PyVal))
    (img : List (String × ImgEntry)) (lab : List (String × Int))
    (cov : List (String × CovEntry)) (ids : List String)
    (h : get_data_dicts cfg in_dict = .ok (img, lab, cov, ids)) :
    ∀ p ∈ lab, p.2 = 0 ∨ p.2 = 1 := by
  unfold get_data_dicts at h
  cases hr : processPatients cfg in_dict ⟨[], [], []⟩ with
  | ok stf =>
    rw [hr] at h
    injection h with h1
    have hlab : lab = stf.label_dict := (congrArg (fun t => t.2.1) h1).symm
    have hbin : labelsBinary stf :=
      processPatients_labelsBinary cfg in_dict ⟨[], [], []⟩
        (fun p hp => absurd hp (List.not_mem_nil p)) stf hr
    rw [hlab]
    exact hbin
  | error e =>
    rw [hr] at h
    exact Except.noConfusion h

/-- Closed instance of `C6_labels_binary` at the spec's scenario
record: the single extracted label is 0 or 1. -/
theorem C6_labels_binary_witness : (1 : Int) = 0 ∨ (1 : Int) = 1 :=
  C6_labels_binary exCfgSeq [("P1", exPatient)] _ _ _ _ rfl ("P1_Left", 1) (by decide)

-- ===== C1: atomic insertion invariant =====

/-- Invariant: the image, label and covariate dictionaries hold exactly
the same keys. -/
def keysAligned (st : ExtState) : Prop :=
  ∀ k, (dictMem st.img_dict k = true ↔ dictMem st.label_dict k = true) ∧
       (dictMem st.img_dict k = true ↔ dictMem st.cov_dict k = true)

/-- Key membership after the `if dict_key not in d: d[dict_key] = init`
initialisation (lines 353-356). -/
lemma dictMem_initIf (d : List (String × α)) (k k' : String) (v : α) :
    dictMem (if ¬ dictMem d k = true then dictSet d k v else d) k' = true ↔
      (k' = k ∨ dictMem d k' = true) := by
  by_cases hm : dictMem d k = true
  · rw [if_neg (by simp [hm])]
    constructor
    · exact Or.inr
    · rintro (rfl | hh)
      · exact hm
      · exact hh
  · rw [if_pos (by simp [hm])]
    exact dictMem_dictSet d k k' v

/-- Lemma: `assign_images` writes exactly the key `dict_key`. -/
lemma dictMem_assign_images (d : List (String × ImgEntry)) (k k' : String)
    (s t : String) (q : Bool) :
    dictMem (assign_images d k s t q) k' = true ↔ (k' = k ∨ dictMem d k' = true) := by
  unfold assign_images
  dsimp only
  split
  · exact dictMem_dictSet d k k' _
  · exact dictMem_dictSet d k k' _

/-- Lemma: `assign_covariates` writes exactly the key `dict_key`. -/
lemma dictMem_assign_covariates (d : List (String × CovEntry)) (k k' : String)
    (machine sex age : PyVal) (q : Bool) (bl : Option PyVal) :
    dictMem (assign_covariates d k machine sex age q bl) k' = true ↔
      (k' = k ∨ dictMem d k' = true) := by
  unfold assign_covariates
  dsimp only
  exact dictMem_dictSet d k k' _

/-- Step principle (alignment version) for the visit/side loops. -/
lemma keysAligned_step (p : ExtState × Option PyErr)
    (cont : ExtState → ExtState × Option PyErr)
    (hp : keysAligned p.1 ∨ p.2 = some .typeErr)
    (hcont : ∀ st, keysAligned st →
      keysAligned (cont st).1 ∨ (cont st).2 = some .typeErr) :
    keysAligned (match p with
      | (st', none) => cont st'
      | r => r).1 ∨
    (match p with
      | (st', none) => cont st'
      | r => r).2 = some .typeErr := by
  obtain ⟨st', err⟩ := p
  cases err with
  | none =>
    rcases hp with hp | hp
    · exact hcont st' hp
    · exact absurd hp (by simp)
  | some e => exact hp

/-- Step principle (alignment version) for the patient loop. -/
lemma keysAligned_stepPat (p : ExtState × Option PyErr)
    (cont : ExtState → Except PyErr ExtState)
    (hp : keysAligned p.1 ∨ p.2 = some .typeErr)
    (hcont : ∀ st, keysAligned st → ∀ stf, cont st = .ok stf → keysAligned stf) :
    ∀ stf, (match p with
      | (st', none) => cont st'
      | (st', some .attrErr) => cont st'
      | (st', some .assertErr) => cont st'
      | (_, some e) => (.error e : Except PyErr ExtState)) = .ok stf → keysAligned stf := by
  obtain ⟨st', err⟩ := p
  cases err with
  | none =>
    rcases hp with hp | hp
    · exact hcont st' hp
    · exact absurd hp (by simp)
  | some e =>
    cases e with
    | attrErr =>
      rcases hp with hp | hp
      · exact hcont st' hp
      · exact absurd hp (by simp)
    | assertErr =>
      rcases hp with hp | hp
      · exact hcont st' hp
      · exact absurd hp (by simp)
    | keyErr => intro stf hok; exact Except.noConfusion hok
    | typeErr => intro stf hok; exact Except.noConfusion hok

/-- Lemma: `visitAssign` after `visitInit` writes all three dictionaries at
the same key, preserving key alignment. -/
lemma visitAssign_keysAligned (cfg : ExtCfg) (st : ExtState) (key sag trv : String)
    (surg : Int) (machine sex age : PyVal) (bl : Option PyVal)
    (st' : ExtState) (err : Option PyErr)
    (hres : visitAssign cfg (visitInit cfg st key) key sag trv surg machine sex age bl =
      (st', err))
    (h : keysAligned st) :
    keysAligned st' := by
  unfold visitAssign at hres
  dsimp only at hres
  split at hres <;>
    (injection hres with e1 e2
     subst e1
     intro k'
     have hk := h k'
     simp only [visitInit, dictMem_assign_images, dictMem_initIf, dictMem_assign_covariates,
       dictMem_dictSet]
     tauto)

set_option maxHeartbeats 1000000 in
lemma processVisit_keysAligned (cfg : ExtCfg) (sid : String)
    (pd : List (String × PyVal)) (side : String) (sd : List (String × PyVal))
    (surg : Int) (u : String) (st : ExtState) (h : keysAligned st) :
    keysAligned (processVisit cfg sid pd side sd surg u st).1 ∨
      (processVisit cfg sid pd side sd surg u st).2 = some .typeErr := by
  rcases hres : processVisit cfg sid pd side sd surg u st with ⟨st', err⟩
  unfold processVisit at hres
  dsimp only at hres
  repeat' split at hres
  all_goals first
    | (injection hres with e1 e2
       subst e1
       subst e2
       first
         | exact Or.inl h
         | exact Or.inr rfl)
    | exact Or.inl (visitAssign_keysAligned _ _ _ _ _ _ _ _ _ _ _ _ hres h)

lemma processVisits_keysAligned (cfg : ExtCfg) (sid : String)
    (pd : List (String × PyVal)) (side : String) (sd : List (String × PyVal))
    (surg : Int) :
    ∀ (us : List String) (st : ExtState), keysAligned st →
      keysAligned (processVisits cfg sid pd side sd surg us st).1 ∨
        (processVisits cfg sid pd side sd surg us st).2 = some .typeErr := by
  intro us
  induction us with
  | nil => intro st h; exact Or.inl h
  | cons u rest ih =>
    intro st h
    unfold processVisits
    exact keysAligned_step _ _ (processVisit_keysAligned cfg sid pd side sd surg u st h) ih

lemma processSides_keysAligned (cfg : ExtCfg) (sid : String)
    (pd : List (String × PyVal)) :
    ∀ (sides : List String) (st : ExtState), keysAligned st →
      keysAligned (processSides cfg sid pd sides st).1 ∨
        (processSides cfg sid pd sides st).2 = some .typeErr := by
  intro sides
  induction sides with
  | nil => intro st h; exact Or.inl h
  | cons side rest ih =>
    intro st h
    unfold processSides
    dsimp only
    split
    · split
      · exact ih st h
      · split
        · exact ih st h
        · exact keysAligned_step _ _
            (processVisits_keysAligned cfg sid pd side _ _ _ st h) ih
    · exact Or.inl h

lemma processPatients_keysAligned (cfg : ExtCfg) :
    ∀ (pats : List (String × PyVal)) (st : ExtState), keysAligned st →
      ∀ stf, processPatients cfg pats st = .ok stf → keysAligned stf := by
  intro pats
  induction pats with
  | nil =>
    intro st h stf hok
    cases hok
    exact h
  | cons hd tl ih =>
    intro st h stf hok
    obtain ⟨sid, pv⟩ := hd
    unfold processPatients at hok
    refine keysAligned_stepPat _ _ ?_ (fun st' h' => ih st' h') stf hok
    cases pv with
    | vdict patient_dict => exact processSides_keysAligned cfg sid patient_dict (sidesOf patient_dict) st h
    | vnone => exact Or.inl h
    | vint n => exact Or.inl h
    | vfloat a b => exact Or.inl h
    | vstr s => exact Or.inl h
    | vlist l => exact Or.inl h

/-- C1: confirmed.  Whenever `get_data_dicts` completes, a sample key
is in the image dict iff it is in the label dict iff it is in the
covariate dict iff it is in the returned key list: each admitted visit
writes all three dictionaries at the same key inside one iteration, and
the key list is `list(img_dict.keys())`. -/
theorem C1_atomic_insertion (cfg : ExtCfg) (in_dict : List (String × PyVal))
    (img : List (String × ImgEntry)) (lab : List (String × Int))
    (cov : List (String × CovEntry)) (ids : List String)
    (h : get_data_dicts cfg in_dict = .ok (img, lab, cov, ids)) :
    ∀ k, (dictMem img k = true ↔ dictMem lab k = true) ∧
         (dictMem img k = true ↔ dictMem cov k = true) ∧
         (k ∈ ids ↔ dictMem img k = true) := by
  unfold get_data_dicts at h
  cases hr : processPatients cfg in_dict ⟨[], [], []⟩ with
  | ok stf =>
    rw [hr] at h
    injection h with h1
    have himg : img = stf.img_dict := (congrArg (fun t => t.1) h1).symm
    have hlab : lab = stf.label_dict := (congrArg (fun t => t.2.1) h1).symm
    have hcov : cov = stf.cov_dict := (congrArg (fun t => t.2.2.1) h1).symm
    have hids : ids = dictKeys stf.img_dict := (congrArg (fun t => t.2.2.2) h1).symm
    have hinit : keysAligned ⟨[], [], []⟩ := by
      intro k
      simp [dictMem]
    have hal : keysAligned stf :=
      processPatients_keysAligned cfg in_dict ⟨[], [], []⟩ hinit stf hr
    intro k
    subst himg hlab hcov hids
    refine ⟨(hal k).1, (hal k).2, ?_⟩
    rw [← dictMem_iff_mem_dictKeys]
  | error e =>
    rw [hr] at h
    exact Except.noConfusion h

/-- Closed instance of `C1_atomic_insertion` at the spec's scenario
record, evaluated at the produced key `"P1_Left"`. -/
theorem C1_atomic_insertion_witness :
    (dictMem [("P1_Left", ImgEntry.seqE [("data/a.png", "data/b.png")])] "P1_Left" = true ↔
       dictMem [("P1_Left", (1 : Int))] "P1_Left" = true) ∧
    (dictMem [("P1_Left", ImgEntry.seqE [("data/a.png", "data/b.png")])] "P1_Left" = true ↔
       dictMem [("P1_Left",
         ([("US_machine", PyVal.vlist [.vstr "X"]),
           ("Sex", PyVal.vlist [.vint 1]),
           ("Age_wks", PyVal.vlist [.vint 10])] : CovEntry))] "P1_Left" = true) ∧
    ("P1_Left" ∈ ["P1_Left"] ↔
       dictMem [("P1_Left", ImgEntry.seqE [("data/a.png", "data/b.png")])] "P1_Left" = true) :=
  C1_atomic_insertion exCfgSeq [("P1", exPatient)] _ _ _ _ rfl "P1_Left"

-- ===== C10: val_dataloader returns None exactly on an empty selection =====

/-- Membership in a dict comprehension is membership in the key list. -/
lemma dictMem_dictOfPairs (ks : List String) (f : String → α) (k : String) :
    dictMem (dictOfPairs ks f) k = true ↔ k ∈ ks := by
  suffices h : ∀ acc : List (String × α),
      dictMem (ks.foldl (fun acc k => dictSet acc k (f k)) acc) k = true ↔
        (dictMem acc k = true ∨ k ∈ ks) by
    have h0 := h []
    simpa [dictMem, dictOfPairs] using h0
  induction ks with
  | nil => intro acc; simp [dictMem]
  | cons a ks ih =>
    intro acc
    simp only [List.foldl_cons, List.mem_cons]
    rw [ih (dictSet acc a (f a)), dictMem_dictSet]
    tauto

/-- C10: confirmed.  With a valid fold index, `val_dataloader` returns
`None` exactly when the fold's validation index list is empty (as with
the no-validation generator `[(range(n), [])]`); otherwise it returns a
loader bundle whose study ids are precisely the ids at those indices
and whose three restricted dictionaries hold exactly those keys. -/
theorem C10_val_dataloader (gen : List (List Nat × List Nat)) (fold : Nat)
    (ids : List String) (img : List (String × List Frac))
    (lab : List (String × Int)) (cov : List (String × CovEntry))
    (tr vi : List Nat)
    (hget : gen.get? fold = some (tr, vi))
    (hvalid : ∀ i ∈ vi, i < ids.length) :
    (vi = [] → KidneyDataModule_val_dataloader gen fold ids img lab cov = none) ∧
    (vi ≠ [] → ∃ b, KidneyDataModule_val_dataloader gen fold ids img lab cov = some b ∧
      b.ids = vi.map (fun i => ids.getD i "") ∧
      (∀ k, dictMem b.imgs k = true ↔ k ∈ b.ids) ∧
      (∀ k, dictMem b.labels k = true ↔ k ∈ b.ids) ∧
      (∀ k, dictMem b.covs k = true ↔ k ∈ b.ids)) := by
  unfold KidneyDataModule_val_dataloader
  rw [hget]
  dsimp only
  constructor
  · intro hvi
    subst hvi
    simp
  · intro hvi
    rw [if_neg (by simp [hvi])]
    refine ⟨_, rfl, rfl, ?_, ?_, ?_⟩ <;>
      (intro k; exact dictMem_dictOfPairs _ _ k)

/-- Closed instance of `C10_val_dataloader`: with the no-validation
generator installed by `setup`, the validation loader is `None`. -/
theorem C10_val_dataloader_witness :
    KidneyDataModule_val_dataloader (no_validation_generator 3) 0 ["a", "b", "c"]
      [] [] [] = none :=
  (C10_val_dataloader (no_validation_generator 3) 0 ["a", "b", "c"] [] [] []
    (List.range 3) [] rfl (by decide)).1 rfl

-- ===== C8: the per-item feature bundle =====

/-- C8: confirmed.  With covariates requested and a well-formed sample,
`__getitem__` returns the image scaled by 1/255, the age vector (a
scalar age becomes a one-element vector), and the binary side indicator
`[1 if id_.split("_")[1] == 'Left' else 0]` broadcast (`* len(age)`) to
the length of the age vector. -/
theorem C8_getitem_features (image_dict : List (String × List Frac))
    (label_dict : List (String × Int)) (cov_dict : List (String × CovEntry))
    (study_ids : List String) (index : Nat) (id_ : String)
    (img : List Frac) (y : Int) (cov : CovEntry) (ageV : PyVal)
    (age : List Frac) (sideStr : String)
    (hid : study_ids.get? index = some id_)
    (him : dictGet image_dict id_ = some img)
    (hlb : dictGet label_dict id_ = some y)
    (hcv : dictGet cov_dict id_ = some cov)
    (hag : dictGet cov "Age_wks" = some ageV)
    (hav : ageVec ageV = some age)
    (hsd : (pySplitUnd id_).get? 1 = some sideStr) :
    KidneyDataset_getitem image_dict label_dict cov_dict study_ids true index =
      some (⟨img.map fracDiv255, some age,
             some (List.replicate age.length (if sideStr = "Left" then 1 else 0))⟩, y, id_) ∧
    (List.replicate age.length (if sideStr = "Left" then 1 else 0)).length = age.length := by
  constructor
  · unfold KidneyDataset_getitem
    rw [hid]
    dsimp only
    rw [him, hlb, hcv]
    dsimp only
    rw [hag]
    dsimp only
    rw [hav]
    dsimp only
    rw [hsd]
    rfl
  · exact List.length_replicate _ _

/-- Closed instance of `C8_getitem_features` on a one-sample dataset
with a scalar age of 10 and key `"P1_Left"`. -/
theorem C8_getitem_features_witness :
    KidneyDataset_getitem [("P1_Left", [⟨255, 1⟩])] [("P1_Left", (1 : Int))]
      [("P1_Left", [("Age_wks", PyVal.vint 10)])] ["P1_Left"] true 0 =
      some (⟨[⟨255, 255⟩], some [⟨10, 1⟩], some [1]⟩, 1, "P1_Left") ∧
    ([(1 : Int)]).length = ([(⟨10, 1⟩ : Frac)]).length :=
  C8_getitem_features [("P1_Left", [⟨255, 1⟩])] [("P1_Left", 1)]
    [("P1_Left", [("Age_wks", PyVal.vint 10)])] ["P1_Left"] 0 "P1_Left"
    [⟨255, 1⟩] 1 [("Age_wks", PyVal.vint 10)] (PyVal.vint 10) [⟨10, 1⟩] "Left"
    rfl rfl rfl rfl rfl rfl rfl

-- ===== C7: split disjointness and determinism =====

/-- C7: confirmed (with the seeded sklearn primitives as parameters).
For every seeded shuffle (any permutation), every seeded
`StratifiedShuffleSplit` and `StratifiedKFold` whose folds satisfy the
library's train/val-disjointness contract, all three split modes
produce disjoint `(train_indices, val_indices)` pairs, and re-running
either split function on identical inputs yields the identical fold
list (the functions are pure once seeded). -/
theorem C7_split_disjoint_deterministic
    (shuffleIdx : List Nat → List Nat)
    (sss : List String → List Int → Frac → List (List Nat × List Nat))
    (skf : List String → List Int → Nat → List (List Nat × List Nat))
    (hsh : ∀ l, (shuffleIdx l).Perm l)
    (hsss : ∀ ids labels sp, ∀ p ∈ sss ids labels sp, ∀ i ∈ p.1, i ∉ p.2)
    (hskf : ∀ ids labels nf, ∀ p ∈ skf ids labels nf, ∀ i ∈ p.1, i ∉ p.2)
    (ids : List String) (labels : List Int) (cov : List (String × CovEntry))
    (split : Frac) (ordered : Bool) (nf : Nat) :
    (∀ folds, make_train_val_split shuffleIdx sss ids labels cov split ordered = .ok folds →
      ∀ p ∈ folds, ∀ i ∈ p.1, i ∉ p.2) ∧
    (∀ p ∈ make_cross_validation_sets skf ids labels nf, ∀ i ∈ p.1, i ∉ p.2) ∧
    make_train_val_split shuffleIdx sss ids labels cov split ordered =
      make_train_val_split shuffleIdx sss ids labels cov split ordered ∧
    make_cross_validation_sets skf ids labels nf =
      make_cross_validation_sets skf ids labels nf := by
  refine ⟨?_, ?_, rfl, rfl⟩
  · intro folds hok p hp i hi1 hi2
    unfold make_train_val_split at hok
    split at hok
    · split at hok
      · exact Except.noConfusion hok
      · injection hok with hfolds
        subst hfolds
        rw [List.mem_singleton] at hp
        subst hp
        have h1 := (hsh _).mem_iff.mp hi1
        have h2 := (hsh _).mem_iff.mp hi2
        rw [List.mem_filter] at h1 h2
        have hp1 := h1.2
        have hp2 := h2.2
        simp only [decide_eq_true_eq] at hp1 hp2
        exact hp2 hp1
    · injection hok with hfolds
      subst hfolds
      exact hsss ids labels split p hp i hi1 hi2
  · intro p hp i hi1 hi2
    exact hskf ids labels nf p hp i hi1 hi2

/-- Closed instance of `C7_split_disjoint_deterministic` with the
identity permutation as the seeded shuffle and empty fold lists for the
stratified splitters. -/
theorem C7_split_disjoint_deterministic_witness :
    (∀ folds, make_train_val_split (fun l => l)
        (fun _ _ _ => []) ["a"] [1] [] ⟨4, 5⟩ true = .ok folds →
      ∀ p ∈ folds, ∀ i ∈ p.1, i ∉ p.2) ∧
    (∀ p ∈ make_cross_validation_sets (fun _ _ _ => []) ["a"] [1] 5,
      ∀ i ∈ p.1, i ∉ p.2) ∧
    make_train_val_split (fun l => l) (fun _ _ _ => []) ["a"] [1] [] ⟨4, 5⟩ true =
      make_train_val_split (fun l => l) (fun _ _ _ => []) ["a"] [1] [] ⟨4, 5⟩ true ∧
    make_cross_validation_sets (fun _ _ _ => []) ["a"] [1] 5 =
      make_cross_validation_sets (fun _ _ _ => []) ["a"] [1] 5 :=
  C7_split_disjoint_deterministic (fun l => l) (fun _ _ _ => []) (fun _ _ _ => [])
    (fun l => List.Perm.refl l)
    (fun _ _ _ p hp => absurd hp (List.not_mem_nil p))
    (fun _ _ _ p hp => absurd hp (List.not_mem_nil p))
    ["a"] [1] [] ⟨4, 5⟩ true 5

-- ===== order theory for the ordered split (C2, C5) =====

lemma charLt_irrefl (a : Char) : charLt a a = false := by
  simp [charLt]

lemma charLt_trans {a b c : Char} (h1 : charLt a b = true) (h2 : charLt b c = true) :
    charLt a c = true := by
  simp only [charLt, decide_eq_true_eq] at h1 h2 ⊢
  omega

lemma char_eq_of_not_lt {a b : Char} (h1 : charLt a b = false) (h2 : charLt b a = false) :
    a = b := by
  simp only [charLt, decide_eq_false_iff_not, not_lt] at h1 h2
  have : a.toNat = b.toNat := le_antisymm h2 h1
  have ha := Char.ofNat_toNat a
  rw [← ha, this, Char.ofNat_toNat]

lemma strLtL_cons_iff (a b : Char) (as bs : List Char) :
    strLtL (a :: as) (b :: bs) = true ↔
      (charLt a b = true ∨ (a = b ∧ strLtL as bs = true)) := by
  simp only [strLtL]
  by_cases hab : charLt a b = true
  · simp [hab]
  · by_cases hba : charLt b a = true
    · have hne : ¬ a = b := by
        rintro rfl
        rw [charLt_irrefl] at hba
        exact Bool.noConfusion hba
      simp [hab, hba, hne]
    · have heq : a = b :=
        char_eq_of_not_lt (Bool.eq_false_iff.mpr hab) (Bool.eq_false_iff.mpr hba)
      simp [hab, hba, heq, charLt_irrefl]

lemma strLtL_trans (a : List Char) : ∀ (b c : List Char),
    strLtL a b = true → strLtL b c = true → strLtL a c = true := by
  induction a with
  | nil =>
    intro b c h1 h2
    cases b with
    | nil => simp [strLtL] at h1
    | cons bb bs =>
      cases c with
      | nil => simp [strLtL] at h2
      | cons cc cs => simp [strLtL]
  | cons aa as ih =>
    intro b c h1 h2
    cases b with
    | nil => simp [strLtL] at h1
    | cons bb bs =>
      cases c with
      | nil => simp [strLtL] at h2
      | cons cc cs =>
        rw [strLtL_cons_iff] at h1 h2 ⊢
        rcases h1 with h1 | ⟨rfl, h1⟩
        · rcases h2 with h2 | ⟨rfl, h2⟩
          · exact Or.inl (charLt_trans h1 h2)
          · exact Or.inl h1
        · rcases h2 with h2 | ⟨rfl, h2⟩
          · exact Or.inl h2
          · exact Or.inr ⟨rfl, ih _ _ h1 h2⟩

lemma strLtL_conn (a : List Char) : ∀ (b : List Char),
    strLtL a b = false → strLtL b a = false → a = b := by
  induction a with
  | nil =>
    intro b h1 _
    cases b with
    | nil => rfl
    | cons bb bs => simp [strLtL] at h1
  | cons aa as ih =>
    intro b h1 h2
    cases b with
    | nil => simp [strLtL] at h2
    | cons bb bs =>
      have h1' : ¬ (charLt aa bb = true ∨ (aa = bb ∧ strLtL as bs = true)) := by
        rw [← strLtL_cons_iff, h1]
        simp
      have h2' : ¬ (charLt bb aa = true ∨ (bb = aa ∧ strLtL bs as = true)) := by
        rw [← strLtL_cons_iff, h2]
        simp
      push_neg at h1' h2'
      have heq : aa = bb :=
        char_eq_of_not_lt (Bool.eq_false_iff.mpr h1'.1) (Bool.eq_false_iff.mpr h2'.1)
      subst heq
      have heq2 : as = bs :=
        ih bs (Bool.eq_false_iff.mpr (h1'.2 rfl)) (Bool.eq_false_iff.mpr (h2'.2 rfl))
      rw [heq2]

lemma strLtL_irrefl (a : List Char) : strLtL a a = false := by
  induction a with
  | nil => rfl
  | cons aa as ih => simp [strLtL, charLt_irrefl, ih]

lemma strLt_irrefl (a : String) : strLt a a = false := strLtL_irrefl a.data

lemma strLt_trans {a b c : String} (h1 : strLt a b = true) (h2 : strLt b c = true) :
    strLt a c = true := strLtL_trans a.data b.data c.data h1 h2

lemma str_eq_of_not_lt {a b : String} (h1 : strLt a b = false) (h2 : strLt b a = false) :
    a = b := by
  have h := strLtL_conn a.data b.data h1 h2
  cases a with
  | mk da =>
    cases b with
    | mk db => exact congrArg String.mk h

lemma strLt_asymm {a b : String} (h1 : strLt a b = true) (h2 : strLt b a = true) : False := by
  have h := strLt_trans h1 h2
  rw [strLt_irrefl] at h
  exact Bool.noConfusion h

lemma strLt_false_trans {x y z : String} (h1 : strLt y x = false) (h2 : strLt z y = false) :
    strLt z x = false := by
  cases hzx : strLt z x with
  | false => rfl
  | true =>
    cases hyz : strLt y z with
    | true =>
      have h := strLt_trans hyz hzx
      rw [h] at h1
      exact Bool.noConfusion h1
    | false =>
      have heq : y = z := str_eq_of_not_lt hyz h2
      subst heq
      rw [hzx] at h1
      exact Bool.noConfusion h1

lemma strLe_trans {x y z : String} (h1 : strLe x y = true) (h2 : strLe y z = true) :
    strLe x z = true := by
  unfold strLe at h1 h2 ⊢
  rw [Bool.not_eq_true'] at h1 h2 ⊢
  exact strLt_false_trans h1 h2

lemma strLe_total (x y : String) : strLe x y = true ∨ strLe y x = true := by
  unfold strLe
  cases h : strLt y x with
  | false => left; rfl
  | true =>
    right
    cases h2 : strLt x y with
    | false => rfl
    | true => exact (strLt_asymm h2 h).elim

lemma pairLe_true_iff (a b : String × String) :
    pairLe a b = true ↔
      (strLt a.1 b.1 = true ∨ (a.1 = b.1 ∧ strLe a.2 b.2 = true)) := by
  unfold pairLe
  by_cases h1 : strLt a.1 b.1 = true
  · simp [h1]
  · by_cases h2 : strLt b.1 a.1 = true
    · have hne : ¬ a.1 = b.1 := by
        rintro he
        rw [he, strLt_irrefl] at h2
        exact Bool.noConfusion h2
      simp [h1, h2, hne]
    · have heq : a.1 = b.1 :=
        str_eq_of_not_lt (Bool.eq_false_iff.mpr h1) (Bool.eq_false_iff.mpr h2)
      simp [h1, h2, heq, strLt_irrefl]

instance : IsTotal (String × String) pairLeP := by
  constructor
  intro a b
  unfold pairLeP
  rw [pairLe_true_iff, pairLe_true_iff]
  cases h1 : strLt a.1 b.1 with
  | true => exact Or.inl (Or.inl rfl)
  | false =>
    cases h2 : strLt b.1 a.1 with
    | true => exact Or.inr (Or.inl rfl)
    | false =>
      have heq : a.1 = b.1 := str_eq_of_not_lt h1 h2
      rcases strLe_total a.2 b.2 with h | h
      · exact Or.inl (Or.inr ⟨heq, h⟩)
      · exact Or.inr (Or.inr ⟨heq.symm, h⟩)

instance : IsTrans (String × String) pairLeP := by
  constructor
  intro a b c h1 h2
  unfold pairLeP at h1 h2 ⊢
  rw [pairLe_true_iff] at h1 h2 ⊢
  rcases h1 with h1 | ⟨he1, h1⟩
  · rcases h2 with h2 | ⟨he2, h2⟩
    · exact Or.inl (strLt_trans h1 h2)
    · exact Or.inl (he2 ▸ h1)
  · rcases h2 with h2 | ⟨he2, h2⟩
    · exact Or.inl (he1 ▸ h2)
    · exact Or.inr ⟨he1.trans he2, strLe_trans h1 h2⟩

-- ===== the sorted (id, date) sequence of the ordered split =====

/-- The sorted `(patient id, date)` sequence that the ordered split of
`load_dataset` slices (`sorted(zip(pt_ids, BL_dates))`). -/
def orderedSortedPairs (in_dict : List (String × PyVal)) : List (String × String) :=
  let pt_ids := dictKeys in_dict
  (pt_ids.zip (pt_ids.map (blDateOf in_dict))).insertionSort pairLeP

lemma orderedSortedPairs_perm (in_dict : List (String × PyVal)) :
    (orderedSortedPairs in_dict).Perm
      ((dictKeys in_dict).zip ((dictKeys in_dict).map (blDateOf in_dict))) :=
  List.perm_insertionSort _ _

lemma orderedSortedPairs_length (in_dict : List (String × PyVal)) :
    (orderedSortedPairs in_dict).length = (dictKeys in_dict).length := by
  rw [(orderedSortedPairs_perm in_dict).length_eq, List.length_zip, List.length_map]
  exact Nat.min_self _

lemma orderedSortedPairs_map_fst_perm (in_dict : List (String × PyVal)) :
    ((orderedSortedPairs in_dict).map Prod.fst).Perm (dictKeys in_dict) := by
  have h := (orderedSortedPairs_perm in_dict).map Prod.fst
  rw [List.map_fst_zip] at h
  · exact h
  · rw [List.length_map]

lemma orderedSortedPairs_fst_nodup (in_dict : List (String × PyVal))
    (h : (dictKeys in_dict).Nodup) :
    ((orderedSortedPairs in_dict).map Prod.fst).Nodup :=
  ((orderedSortedPairs_map_fst_perm in_dict).nodup_iff).mpr h

/-- Lemma: `orderedSplitIds` slices the sorted sequence: head before the
boundary as train, tail after the boundary as test (both as id lists). -/
lemma orderedSplitIds_take_drop (in_dict : List (String × PyVal)) (test_prop : Frac) :
    orderedSplitIds in_dict test_prop =
      (((orderedSortedPairs in_dict).take
          ((dictKeys in_dict).length -
            (pythonRound (dictKeys in_dict).length test_prop).toNat)).map Prod.fst,
       ((orderedSortedPairs in_dict).drop
          ((dictKeys in_dict).length -
            (pythonRound (dictKeys in_dict).length test_prop).toNat + 1)).map Prod.fst) := rfl

-- generic index/segment lemmas

lemma fst_get_not_mem_take {α β : Type} (s : List (α × β)) (k : Nat) (b : α × β)
    (hnd : (s.map Prod.fst).Nodup) (hk : s.get? k = some b) :
    b.1 ∉ (s.take k).map Prod.fst := by
  intro hmem
  have hsplit : s.take k ++ s.drop k = s := List.take_append_drop k s
  have hnd2 : ((s.take k).map Prod.fst ++ (s.drop k).map Prod.fst).Nodup := by
    rw [← List.map_append, hsplit]
    exact hnd
  have hdisj := List.disjoint_of_nodup_append hnd2
  have hb : b ∈ s.drop k := by
    have h0 : (s.drop k).get? 0 = some b := by
      rw [List.get?_eq_getElem?, List.getElem?_drop, ← List.get?_eq_getElem?]
      simpa using hk
    exact List.get?_mem h0
  exact hdisj hmem (List.mem_map_of_mem Prod.fst hb)

lemma fst_get_not_mem_drop {α β : Type} (s : List (α × β)) (k : Nat) (b : α × β)
    (hnd : (s.map Prod.fst).Nodup) (hk : s.get? k = some b) :
    b.1 ∉ (s.drop (k + 1)).map Prod.fst := by
  intro hmem
  have hsplit : s.take (k + 1) ++ s.drop (k + 1) = s := List.take_append_drop (k + 1) s
  have hnd2 : ((s.take (k + 1)).map Prod.fst ++ (s.drop (k + 1)).map Prod.fst).Nodup := by
    rw [← List.map_append, hsplit]
    exact hnd
  have hdisj := List.disjoint_of_nodup_append hnd2
  have hb : b ∈ s.take (k + 1) := by
    have h0 : (s.take (k + 1)).get? k = some b := by
      rw [List.get?_eq_getElem?, List.getElem?_take, if_pos (Nat.lt_succ_self k),
        ← List.get?_eq_getElem?]
      exact hk
    exact List.get?_mem h0
  exact hdisj (List.mem_map_of_mem Prod.fst hb) hmem

lemma fst_get_mem_take {α β : Type} (s : List (α × β)) (k i : Nat) (q : α × β)
    (hik : i < k) (hq : s.get? i = some q) :
    q.1 ∈ (s.take k).map Prod.fst := by
  have h0 : (s.take k).get? i = some q := by
    rw [List.get?_eq_getElem?, List.getElem?_take, if_pos hik, ← List.get?_eq_getElem?]
    exact hq
  exact List.mem_map_of_mem Prod.fst (List.get?_mem h0)

lemma fst_get_mem_drop {α β : Type} (s : List (α × β)) (k i : Nat) (q : α × β)
    (hik : k ≤ i) (hq : s.get? i = some q) :
    q.1 ∈ (s.drop k).map Prod.fst := by
  have h0 : (s.drop k).get? (i - k) = some q := by
    rw [List.get?_eq_getElem?, List.getElem?_drop, ← List.get?_eq_getElem?]
    rw [Nat.add_sub_cancel' hik]
    exact hq
  exact List.mem_map_of_mem Prod.fst (List.get?_mem h0)

-- ===== C2: what the ordered split actually sorts by =====

/-- The ordered train/test split as claim C2 words it (modelled from
the claim for comparison with the code): sort the patient ids by their
baseline date (stable), the tail `test_prop` fraction of the
date-ordered sequence becomes the test set, the head the train set. -/
def orderedSplitIdsClaim (in_dict : List (String × PyVal)) (test_prop : Frac) :
    List String × List String :=
  let pt_ids := dictKeys in_dict
  let sorted_ids :=
    ((pt_ids.zip (pt_ids.map (blDateOf in_dict))).insertionSort dateLeP).map Prod.fst
  let test_n : Nat := (pythonRound pt_ids.length test_prop).toNat
  (sorted_ids.take (pt_ids.length - test_n), sorted_ids.drop (pt_ids.length - test_n))

/-- Five patients whose id order disagrees with their date order: `a`
has the latest baseline date, `e` the earliest, `c` has none (so its
date defaults to `"2021-01-01"`). -/
def exOrdered : List (String × PyVal) :=
  [("b", .vdict [("BL_date", .vstr "2020-01-01")]),
   ("a", .vdict [("BL_date", .vstr "2025-01-01")]),
   ("c", .vdict []),
   ("d", .vdict [("BL_date", .vstr "2022-03-01")]),
   ("e", .vdict [("BL_date", .vstr "2019-01-01")])]

/-- C2: counterexample.  The ordered split does NOT sort the patient
ids by baseline date: `sorted(zip(pt_ids, BL_dates))` sorts the
`(id, date)` TUPLES, so the patient id is the primary sort key.  On
`exOrdered` the code puts `a` (latest date) first and into the train
set, while the claim's date-ordered split would put `a` in the test
tail: the two computations disagree. -/
theorem C2_counterexample :
    orderedSplitIds exOrdered ⟨1, 5⟩ ≠ orderedSplitIdsClaim exOrdered ⟨1, 5⟩ := by
  decide

/-- C2 (amended): the ordered split sorts `zip(pt_ids, BL_dates)` by
Python tuple order — patient id first, date only breaking ties, hence
(ids being unique dict keys) strictly by patient id — and then takes
the head `len - round(len * test_prop)` of that id-ordered sequence as
the train set and the positions after the boundary as the test set. -/
theorem C2_ordered_split_sort (in_dict : List (String × PyVal)) (test_prop : Frac)
    (hnodup : (dictKeys in_dict).Nodup) :
    (orderedSortedPairs in_dict).Pairwise (fun a b => strLt a.1 b.1 = true) ∧
    (orderedSplitIds in_dict test_prop).1 =
      ((orderedSortedPairs in_dict).take
        ((dictKeys in_dict).length -
          (pythonRound (dictKeys in_dict).length test_prop).toNat)).map Prod.fst ∧
    (orderedSplitIds in_dict test_prop).2 =
      ((orderedSortedPairs in_dict).drop
        ((dictKeys in_dict).length -
          (pythonRound (dictKeys in_dict).length test_prop).toNat + 1)).map Prod.fst := by
  refine ⟨?_, rfl, rfl⟩
  have hsorted : (orderedSortedPairs in_dict).Pairwise pairLeP :=
    List.sorted_insertionSort pairLeP _
  have hnd := orderedSortedPairs_fst_nodup in_dict hnodup
  have hne : (orderedSortedPairs in_dict).Pairwise (fun a b => a.1 ≠ b.1) :=
    List.pairwise_map.mp hnd
  refine (hsorted.and hne).imp ?_
  intro a b h
  rcases (pairLe_true_iff a b).mp h.1 with hlt | ⟨heq, _⟩
  · exact hlt
  · exact absurd heq h.2

/-- Closed instance of `C2_ordered_split_sort` at `exOrdered`. -/
theorem C2_ordered_split_sort_witness :
    (orderedSortedPairs exOrdered).Pairwise (fun a b => strLt a.1 b.1 = true) ∧
    (orderedSplitIds exOrdered ⟨1, 5⟩).1 =
      ((orderedSortedPairs exOrdered).take
        ((dictKeys exOrdered).length -
          (pythonRound (dictKeys exOrdered).length ⟨1, 5⟩).toNat)).map Prod.fst ∧
    (orderedSplitIds exOrdered ⟨1, 5⟩).2 =
      ((orderedSortedPairs exOrdered).drop
        ((dictKeys exOrdered).length -
          (pythonRound (dictKeys exOrdered).length ⟨1, 5⟩).toNat + 1)).map Prod.fst :=
  C2_ordered_split_sort exOrdered ⟨1, 5⟩ (by decide)

-- ===== C5: the boundary patient is dropped from both sets =====

lemma boundary_drop_generic (s : List (String × String)) (n tn : Nat)
    (hslen : s.length = n) (hnd : (s.map Prod.fst).Nodup)
    (h1 : 1 ≤ tn) (h2 : tn ≤ n) :
    ((s.take (n - tn)).map Prod.fst).length = n - tn ∧
    ((s.drop (n - tn + 1)).map Prod.fst).length = tn - 1 ∧
    ∀ b, s.get? (n - tn) = some b →
      b.1 ∉ (s.take (n - tn)).map Prod.fst ∧
      b.1 ∉ (s.drop (n - tn + 1)).map Prod.fst ∧
      ∀ i, i < n → i ≠ n - tn → ∀ q, s.get? i = some q →
        q.1 ∈ (s.take (n - tn)).map Prod.fst ∨
        q.1 ∈ (s.drop (n - tn + 1)).map Prod.fst := by
  refine ⟨?_, ?_, ?_⟩
  · rw [List.length_map, List.length_take, hslen]
    omega
  · rw [List.length_map, List.length_drop, hslen]
    omega
  · intro b hb
    refine ⟨fst_get_not_mem_take s (n - tn) b hnd hb,
            fst_get_not_mem_drop s (n - tn) b hnd hb, ?_⟩
    intro i hi hne q hq
    rcases Nat.lt_or_ge i (n - tn) with hlt | hge
    · exact Or.inl (fst_get_mem_take s (n - tn) i q hlt hq)
    · have hge' : n - tn + 1 ≤ i := by omega
      exact Or.inr (fst_get_mem_drop s (n - tn + 1) i q hge' hq)

/-- C5: confirmed.  In the ordered split with `1 ≤ test_n ≤ n` (where
`test_n = round(n * test_prop)`; for 10 patients and `test_prop = 0.2`,
`test_n = 2`), the train set has `n - test_n` patients, the test set
only `test_n - 1`, the patient at sorted position `n - test_n` is in
neither set, and every other sorted position lands in train or test. -/
theorem C5_boundary_drop (in_dict : List (String × PyVal)) (test_prop : Frac)
    (hnodup : (dictKeys in_dict).Nodup)
    (h1 : 1 ≤ (pythonRound (dictKeys in_dict).length test_prop).toNat)
    (h2 : (pythonRound (dictKeys in_dict).length test_prop).toNat ≤
      (dictKeys in_dict).length) :
    (orderedSplitIds in_dict test_prop).1.length =
      (dictKeys in_dict).length -
        (pythonRound (dictKeys in_dict).length test_prop).toNat ∧
    (orderedSplitIds in_dict test_prop).2.length =
      (pythonRound (dictKeys in_dict).length test_prop).toNat - 1 ∧
    ∀ b, (orderedSortedPairs in_dict).get?
        ((dictKeys in_dict).length -
          (pythonRound (dictKeys in_dict).length test_prop).toNat) = some b →
      b.1 ∉ (orderedSplitIds in_dict test_prop).1 ∧
      b.1 ∉ (orderedSplitIds in_dict test_prop).2 ∧
      ∀ i, i < (dictKeys in_dict).length →
        i ≠ (dictKeys in_dict).length -
          (pythonRound (dictKeys in_dict).length test_prop).toNat →
        ∀ q, (orderedSortedPairs in_dict).get? i = some q →
          q.1 ∈ (orderedSplitIds in_dict test_prop).1 ∨
          q.1 ∈ (orderedSplitIds in_dict test_prop).2 := by
  rw [orderedSplitIds_take_drop]
  dsimp only
  exact boundary_drop_generic (orderedSortedPairs in_dict) (dictKeys in_dict).length
    (pythonRound (dictKeys in_dict).length test_prop).toNat
    (orderedSortedPairs_length in_dict) (orderedSortedPairs_fst_nodup in_dict hnodup) h1 h2

/-- Ten patients (unique single-digit ids, shared baseline date), the
spec's boundary-drop scenario input. -/
def ex10 : List (String × PyVal) :=
  [("p0", .vdict [("BL_date", .vstr "2021-01-01")]),
   ("p1", .vdict [("BL_date", .vstr "2021-01-01")]),
   ("p2", .vdict [("BL_date", .vstr "2021-01-01")]),
   ("p3", .vdict [("BL_date", .vstr "2021-01-01")]),
   ("p4", .vdict [("BL_date", .vstr "2021-01-01")]),
   ("p5", .vdict [("BL_date", .vstr "2021-01-01")]),
   ("p6", .vdict [("BL_date", .vstr "2021-01-01")]),
   ("p7", .vdict [("BL_date", .vstr "2021-01-01")]),
   ("p8", .vdict [("BL_date", .vstr "2021-01-01")]),
   ("p9", .vdict [("BL_date", .vstr "2021-01-01")])]

/-- Closed instance of `C5_boundary_drop`: 10 patients with
`test_prop = 1/5` yield 8 train patients and 1 test patient, and the
boundary patient `p8` is in neither set. -/
theorem C5_boundary_drop_witness :
    (orderedSplitIds ex10 ⟨1, 5⟩).1.length = 8 ∧
    (orderedSplitIds ex10 ⟨1, 5⟩).2.length = 1 ∧
    "p8" ∉ (orderedSplitIds ex10 ⟨1, 5⟩).1 ∧
    "p8" ∉ (orderedSplitIds ex10 ⟨1, 5⟩).2 :=
  ⟨(C5_boundary_drop ex10 ⟨1, 5⟩ (by decide) (by decide) (by decide)).1,
   (C5_boundary_drop ex10 ⟨1, 5⟩ (by decide) (by decide) (by decide)).2.1,
   ((C5_boundary_drop ex10 ⟨1, 5⟩ (by decide) (by decide) (by decide)).2.2
      ("p8", "2021-01-01") rfl).1,
   ((C5_boundary_drop ex10 ⟨1, 5⟩ (by decide) (by decide) (by decide)).2.2
      ("p8", "2021-01-01") rfl).2.1⟩
